import Mathlib

/-!
Shallow embedding of `src/src/AbstractDiskWriter.cc` (aria2's random-access
disk writer core).  Files are modelled as byte lists, the filesystem as an
association list from paths to contents plus a list of existing directories,
and the interruptible OS write/read primitives are driven by explicit traces
of OS outcomes (partial completion, signal interruption, errno failure).
Paths are lists of name components; machine byte values are plain `Nat`.
-/

namespace aria2

/-- A filesystem path, as its list of components (`"a/b/f"` is `["a","b","f"]`). -/
abbrev Path := List String

/-- Errno values the embedded code distinguishes.  `ENOSPC` drives the
out-of-space escalation in `writeData`; `EBADF` is what the OS reports for a
transfer on an invalid descriptor; `EOTHER` stands for any other genuine failure. -/
inductive Errno where
  | ENOSPC
  | EBADF
  | EOTHER
deriving DecidableEq, Repr

/-- The error taxonomy of the core, one constructor per distinct throw site
kind: `DlAbortEx` with the open/seek/write/read message, the
`DownloadFailureException` escalation for ENOSPC, and the
"File not opened." guard of `truncate`/`size`. -/
inductive DiskError where
  | OpenError
  | SeekError
  | WriteError (e : Errno)
  | OutOfSpaceError
  | ReadError (e : Errno)
  | NotOpenError
deriving DecidableEq, Repr

/-- Outcome of one operation: normal return, a thrown exception, `spinning`
when the supplied OS-outcome trace ran out with the retry loop still running
(the embedding's rendering of non-termination), or `aborted` for a failed
C `assert`. -/
inductive Outcome (α : Type) where
  | ok (a : α)
  | error (e : DiskError)
  | spinning
  | aborted
deriving DecidableEq, Repr

/-- The open file description behind a valid descriptor: which path it
refers to and the current file offset (cursor). -/
structure OpenFile where
  path : Path
  pos : Nat
deriving DecidableEq, Repr

/-- The `AbstractDiskWriter` state: `fd` (`none` embeds the sentinel `-1`)
and the bound `filename`. -/
structure DiskWriter where
  fd : Option OpenFile
  filename : Path
deriving DecidableEq, Repr

/-- Filesystem state: regular files (path to byte contents) and directories. -/
structure FileSys where
  files : List (Path × List Nat)
  dirs : List Path
deriving DecidableEq, Repr

/-- Result of an operation: updated filesystem, updated writer, outcome.
Mutations performed before a throw persist, so errors carry state too. -/
structure OpRes (α : Type) where
  fs : FileSys
  w : DiskWriter
  out : Outcome α
deriving DecidableEq, Repr

/-- Replace the writer's descriptor. -/
def setFd (w : DiskWriter) (fd : Option OpenFile) : DiskWriter :=
  ⟨fd, w.filename⟩

/-- Rebind the writer's `filename` field (`this->filename = filename`). -/
def setFilename (w : DiskWriter) (name : Path) : DiskWriter :=
  ⟨w.fd, name⟩

/-- Association-list lookup of a file's contents. -/
def lookupFile : List (Path × List Nat) → Path → Option (List Nat)
  | [], _ => none
  | (q, c) :: rest, p => if p = q then some c else lookupFile rest p

/-- Store contents for a path, replacing an existing entry or appending. -/
def updateFile : List (Path × List Nat) → Path → List Nat → List (Path × List Nat)
  | [], p, c => [(p, c)]
  | (q, d) :: rest, p, c =>
      if p = q then (p, c) :: rest else (q, d) :: updateFile rest p c

/-- Contents seen through an open descriptor (a dangling descriptor reads
as empty; well-formed states never produce one). -/
def fileOf (fs : FileSys) (p : Path) : List Nat :=
  (lookupFile fs.files p).getD []

/-- One OS `write` at offset `pos`, POSIX semantics: a seek past end-of-file
followed by a write fills the gap with zero bytes; a zero-length transfer
changes nothing. -/
def writeAt (c : List Nat) (pos : Nat) (b : List Nat) : List Nat :=
  if b = [] then c
  else c.take pos ++ List.replicate (pos - c.length) 0 ++ b ++ c.drop (pos + b.length)

/-- One OS `read` of `len` bytes at offset `pos`: returns the available
bytes, possibly fewer than `len`, empty at or past end-of-file. -/
def readAt (c : List Nat) (pos len : Nat) : List Nat :=
  (c.drop pos).take len

/-- `ftruncate` semantics: shrink, or extend with zero bytes. -/
def setFileLength (c : List Nat) (n : Nat) : List Nat :=
  if n ≤ c.length then c.take n else c ++ List.replicate (n - c.length) 0

/-- Outcome of one OS `write` call: completed `n` bytes, failed with
`EINTR` (signal interruption), or failed with errno `e`. -/
inductive WriteRes where
  | ok (n : Nat)
  | eintr
  | err (e : Errno)
deriving DecidableEq, Repr

/-- Outcome of one OS `read` call: completed (delivering the available
bytes), failed with `EINTR`, or failed with errno `e`. -/
inductive ReadRes where
  | okr
  | eintr
  | err (e : Errno)
deriving DecidableEq, Repr

/-- Result of `writeDataInternal`: the loop returned `len` (`done`, with the
final contents and cursor), returned `-1` with errno `e` (`fail`), or the
outcome trace was exhausted with the loop still running (`pending`, carrying
the bytes written so far). -/
inductive WInternalRes where
  | done (c : List Nat) (pos : Nat)
  | fail (c : List Nat) (pos : Nat) (e : Errno)
  | pending (c : List Nat) (pos : Nat) (written : Nat)
deriving DecidableEq, Repr

/-- `AbstractDiskWriter::writeDataInternal`: the bounded write loop.  While
`written < len` it issues OS writes; an `EINTR` outcome is retried
transparently (inner `while ... errno == EINTR` loop), an errno outcome
returns `-1`, and a completion of `n` bytes advances cursor and count by
`min n (len - written)` (the OS never completes more than requested).
Each consumed trace entry is one OS `write` call. -/
def writeDataInternal (c : List Nat) (pos : Nat) (data : List Nat)
    (written : Nat) (trace : List WriteRes) : WInternalRes :=
  if written < data.length then
    match trace with
    | [] => .pending c pos written
    | .eintr :: rest => writeDataInternal c pos data written rest
    | .err e :: _ => .fail c pos e
    | .ok n :: rest =>
        let m := min n (data.length - written)
        writeDataInternal (writeAt c pos ((data.drop written).take m))
          (pos + m) data (written + m) rest
  else .done c pos

/-- Result of `readDataInternal`: bytes delivered, errno failure, or trace
exhausted while spinning on `EINTR`. -/
inductive RInternalRes where
  | got (bytes : List Nat)
  | fail (e : Errno)
  | pending
deriving DecidableEq, Repr

/-- `AbstractDiskWriter::readDataInternal`: a single OS `read`, retried only
across signal interruption — the first non-`EINTR` outcome decides, and no
further OS calls are issued. -/
def readDataInternal (c : List Nat) (pos len : Nat) : List ReadRes → RInternalRes
  | [] => .pending
  | .eintr :: rest => readDataInternal c pos len rest
  | .err e :: _ => .fail e
  | .okr :: _ => .got (readAt c pos len)

/-- `lseek(fd, offset, SEEK_SET)`: returns `-1` on an invalid descriptor
(`EBADF`) or a negative offset (`EINVAL`), leaving the cursor unchanged;
otherwise returns `offset` with the cursor repositioned. -/
def lseekOS (w : DiskWriter) (offset : Int) : Int × DiskWriter :=
  match w.fd with
  | none => (-1, w)
  | some h => if offset < 0 then (-1, w)
              else (offset, setFd w (some ⟨h.path, offset.toNat⟩))

/-- `AbstractDiskWriter::seek`: throws `SeekError` iff `lseek` does not
return the requested offset. -/
def seek (w : DiskWriter) (offset : Int) : DiskWriter × Option DiskError :=
  let r := lseekOS w offset
  if offset = r.1 then (r.2, none) else (r.2, some .SeekError)

/-- `AbstractDiskWriter::writeData`: seek to `offset`, then run the bounded
write loop; on a `-1` return, throw `DownloadFailureException`
(`OutOfSpaceError`) when `errno == ENOSPC` and `DlAbortEx` (`WriteError`)
otherwise.  On an invalid descriptor every OS write fails with `EBADF`
(a zero-length request issues no write and returns success). -/
def writeData (fs : FileSys) (w : DiskWriter) (data : List Nat)
    (offset : Int) (trace : List WriteRes) : OpRes Unit :=
  match seek w offset with
  | (w1, some e) => ⟨fs, w1, .error e⟩
  | (w1, none) =>
    match w1.fd with
    | none =>
        if data.length = 0 then ⟨fs, w1, .ok ()⟩
        else ⟨fs, w1, .error (.WriteError .EBADF)⟩
    | some h =>
        match writeDataInternal (fileOf fs h.path) h.pos data 0 trace with
        | .done c2 pos2 =>
            ⟨⟨updateFile fs.files h.path c2, fs.dirs⟩,
             setFd w1 (some ⟨h.path, pos2⟩), .ok ()⟩
        | .fail c2 pos2 e =>
            ⟨⟨updateFile fs.files h.path c2, fs.dirs⟩,
             setFd w1 (some ⟨h.path, pos2⟩),
             .error (if e = .ENOSPC then .OutOfSpaceError else .WriteError e)⟩
        | .pending c2 pos2 _ =>
            ⟨⟨updateFile fs.files h.path c2, fs.dirs⟩,
             setFd w1 (some ⟨h.path, pos2⟩), .spinning⟩

/-- `AbstractDiskWriter::readData`: seek to `offset`, then a single OS read
(retried across `EINTR` only); a negative return throws `ReadError`,
otherwise the byte count read — possibly short, possibly zero — is returned
and the cursor advances by it.  On an invalid descriptor the read fails
with `EBADF`. -/
def readData (fs : FileSys) (w : DiskWriter) (len : Nat)
    (offset : Int) (trace : List ReadRes) : OpRes (List Nat) :=
  match seek w offset with
  | (w1, some e) => ⟨fs, w1, .error e⟩
  | (w1, none) =>
    match w1.fd with
    | none => ⟨fs, w1, .error (.ReadError .EBADF)⟩
    | some h =>
        match readDataInternal (fileOf fs h.path) h.pos len trace with
        | .got bytes =>
            ⟨fs, setFd w1 (some ⟨h.path, h.pos + bytes.length⟩), .ok bytes⟩
        | .fail e => ⟨fs, w1, .error (.ReadError e)⟩
        | .pending => ⟨fs, w1, .spinning⟩

/-- `AbstractDiskWriter::truncate`: throws `NotOpenError` when no file is
open; otherwise calls `ftruncate(fd, length)` and ignores its result — when
the OS truncate fails (`truncFails`), the failure is silently dropped and
the call returns normally. -/
def truncate (fs : FileSys) (w : DiskWriter) (length : Nat)
    (truncFails : Bool) : OpRes Unit :=
  match w.fd with
  | none => ⟨fs, w, .error .NotOpenError⟩
  | some h =>
      if truncFails then ⟨fs, w, .ok ()⟩
      else ⟨⟨updateFile fs.files h.path (setFileLength (fileOf fs h.path) length),
             fs.dirs⟩, w, .ok ()⟩

/-- `AbstractDiskWriter::size`: throws `NotOpenError` when no file is open;
otherwise `fstat` — returning `0` when the status query itself fails
(`statFails`), and the on-disk length otherwise. -/
def size (fs : FileSys) (w : DiskWriter) (statFails : Bool) : OpRes Nat :=
  match w.fd with
  | none => ⟨fs, w, .error .NotOpenError⟩
  | some h =>
      if statFails then ⟨fs, w, .ok 0⟩
      else ⟨fs, w, .ok (fileOf fs h.path).length⟩

/-- `AbstractDiskWriter::closeFile`: release the descriptor if any;
idempotent. -/
def closeFile (w : DiskWriter) : DiskWriter :=
  setFd w none

/-- `File::isFile` (external path utility, spec contract
`isFile(path) -> bool`): the path names an existing regular file. -/
def isFile (fs : FileSys) (p : Path) : Bool :=
  (lookupFile fs.files p).isSome

/-- `File::exists` (external path utility, spec contract
`exists(path) -> bool`): regular file or directory. -/
def fileExists (fs : FileSys) (p : Path) : Bool :=
  isFile fs p || fs.dirs.contains p

/-- `File::getDirname` (external path utility, spec contract
`parentDirectory(path) -> path`): the path without its last component. -/
def getDirname (p : Path) : Path :=
  p.dropLast

/-- Modelled from the spec: `Util::mkdirs` is the external
directory-creation utility (`ensureDirectories(path) -> success/failure`);
its source is not part of this unit.  Modelled as recording the directory
as existing. -/
def mkdirs (fs : FileSys) (d : Path) : FileSys :=
  ⟨fs.files, d :: fs.dirs⟩

/-- `AbstractDiskWriter::openExistingFile`: rebinds `filename` first, then
throws `OpenError` if the path is not a regular file, then opens with
`O_RDWR` (no truncation) — the OS open of an existing regular file
succeeds, yielding a descriptor at offset `0`. -/
def openExistingFile (fs : FileSys) (w : DiskWriter) (name : Path)
    (totalLength : Nat) : OpRes Unit :=
  let w1 := setFilename w name
  match lookupFile fs.files name with
  | none => ⟨fs, w1, .error .OpenError⟩
  | some _ => ⟨fs, setFd w1 (some ⟨name, 0⟩), .ok ()⟩

/-- `AbstractDiskWriter::createFile`: rebinds `filename`, asserts the name
nonempty, ensures ancestor directories via `mkdirs`, then opens with
`O_CREAT|O_RDWR|O_TRUNC` plus the caller's extra flags (modelled by `excl`
for `O_EXCL`): the open fails (`OpenError`) on a directory (`EISDIR`) or,
with `O_EXCL`, on an existing file (`EEXIST`) — and in those cases the
source's `if((fd = open(...)) < 0)` has already stored the open's `-1`
return in `fd`, overwriting any previous handle — otherwise the file now
exists with empty contents and the descriptor is at offset `0`. -/
def createFile (fs : FileSys) (w : DiskWriter) (name : Path)
    (excl : Bool) : OpRes Unit :=
  let w1 := setFilename w name
  if name = [] then ⟨fs, w1, .aborted⟩
  else
    let fs1 := mkdirs fs (getDirname name)
    if name ∈ fs1.dirs then ⟨fs1, setFd w1 none, .error .OpenError⟩
    else if excl ∧ (lookupFile fs1.files name).isSome then
      ⟨fs1, setFd w1 none, .error .OpenError⟩
    else
      ⟨⟨updateFile fs1.files name [], fs1.dirs⟩,
       setFd w1 (some ⟨name, 0⟩), .ok ()⟩

/-- Modelled from the spec: `initAndOpenFile` is the virtual
creation-policy hook ("a pluggable variant, not fixed by this core"),
overridden outside this unit; modelled as the plain creation policy. -/
def initAndOpenFile (fs : FileSys) (w : DiskWriter) (name : Path)
    (totalLength : Nat) : OpRes Unit :=
  createFile fs w name false

/-- `AbstractDiskWriter::openFile`: dispatch on `File::exists`. -/
def openFile (fs : FileSys) (w : DiskWriter) (name : Path)
    (totalLength : Nat) : OpRes Unit :=
  if fileExists fs name then openExistingFile fs w name totalLength
  else initAndOpenFile fs w name totalLength

/-- Number of trace entries that are not signal interruptions, i.e. OS
write calls that either complete bytes or fail for real. -/
def countNonIntr : List WriteRes → Nat
  | [] => 0
  | .eintr :: rest => countNonIntr rest
  | _ :: rest => countNonIntr rest + 1

/-- A concrete filesystem used by the witnesses: one four-byte regular
file `"f"` and one directory `"d"`. -/
def sampleFs : FileSys :=
  ⟨[(["f"], [9, 9, 9, 9])], [["d"]]⟩

/-- A writer with an open descriptor on `"f"`. -/
def sampleOpen : DiskWriter :=
  ⟨some ⟨["f"], 0⟩, ["f"]⟩

/-- A writer on which no open/create has succeeded. -/
def sampleClosed : DiskWriter :=
  ⟨none, []⟩

lemma writeAt_nil (c : List Nat) (pos : Nat) : writeAt c pos [] = c := by
  simp [writeAt]

lemma lookupFile_updateFile_self (l : List (Path × List Nat)) (p : Path)
    (c : List Nat) : lookupFile (updateFile l p c) p = some c := by
  induction l with
  | nil => simp [updateFile, lookupFile]
  | cons hd tl ih =>
      by_cases h : p = hd.1
      · simp [updateFile, h, lookupFile]
      · simp [updateFile, h, lookupFile, ih]

lemma dropLast_ne_self (l : Path) (h : l ≠ []) : l ≠ l.dropLast := by
  intro hcon
  have h1 := List.length_dropLast l
  have h2 : 0 < l.length := List.length_pos.mpr h
  rw [← hcon] at h1
  omega

/-- One completed OS write preserves the written-region invariant: the
first `w` bytes of `data` already sit at `offset`, and after writing the
next `m` bytes at cursor `offset + w`, the first `w + m` bytes do. -/
lemma writeAt_region (c data : List Nat) (offset w m : Nat)
    (hw : (c.drop offset).take w = data.take w)
    (hl : w = 0 ∨ offset + w ≤ c.length)
    (hm : w + m ≤ data.length) :
    ((writeAt c (offset + w) ((data.drop w).take m)).drop offset).take (w + m)
        = data.take (w + m)
    ∧ (w + m = 0 ∨
        offset + (w + m) ≤ (writeAt c (offset + w) ((data.drop w).take m)).length) := by
  by_cases hm0 : m = 0
  · subst hm0
    simpa [writeAt_nil] using And.intro hw hl
  · have hblen : ((data.drop w).take m).length = m := by
      simp only [List.length_take, List.length_drop]
      omega
    have hb : (data.drop w).take m ≠ [] := by
      intro h
      rw [h] at hblen
      simp at hblen
      omega
    rw [writeAt, if_neg hb, List.append_assoc]
    have hAlen : (c.take (offset + w) ++
        (List.replicate (offset + w - c.length) 0 : List Nat)).length
          = offset + w := by
      simp only [List.length_append, List.length_take, List.length_replicate]
      omega
    rw [List.drop_append_eq_append_drop, List.take_append_eq_append_take]
    have hdroplen : ((c.take (offset + w) ++
        (List.replicate (offset + w - c.length) 0 : List Nat)).drop offset).length
          = w := by
      simp only [List.length_drop, hAlen]
      omega
    constructor
    · rw [List.take_of_length_le (by omega), hdroplen]
      have hdz : offset - (c.take (offset + w) ++
          (List.replicate (offset + w - c.length) 0 : List Nat)).length = 0 := by
        omega
      rw [hdz, List.drop_zero]
      have : w + m - w = m := by omega
      rw [this, List.take_append_eq_append_take, List.take_of_length_le (le_of_eq hblen),
        hblen]
      have hmm : m - m = 0 := by omega
      rw [hmm, List.take_zero, List.append_nil]
      rcases hl with h0 | hle
      · subst h0
        have : ((c.take (offset + 0) ++
            (List.replicate (offset + 0 - c.length) 0 : List Nat)).drop offset) = [] := by
          rw [← List.length_eq_zero]
          omega
        rw [this]
        simp
      · have hrep : offset + w - c.length = 0 := by omega
        rw [hrep, List.replicate_zero, List.append_nil, List.drop_take]
        have hwo : offset + w - offset = w := by omega
        rw [hwo, hw, ← List.take_add]
    · right
      simp only [List.length_append, hAlen, hblen]
      omega

/-- Unfolding: the loop exits as soon as `written` reaches `len`. -/
lemma writeDataInternal_stop (c : List Nat) (pos : Nat) (data : List Nat)
    (written : Nat) (trace : List WriteRes) (h : ¬ written < data.length) :
    writeDataInternal c pos data written trace = .done c pos := by
  rw [writeDataInternal.eq_def, if_neg h]

/-- Unfolding: mid-loop, an exhausted trace leaves the loop pending. -/
lemma writeDataInternal_nil (c : List Nat) (pos : Nat) (data : List Nat)
    (written : Nat) (h : written < data.length) :
    writeDataInternal c pos data written [] = .pending c pos written := by
  rw [writeDataInternal.eq_def, if_pos h]

/-- Unfolding: a signal-interrupted OS write is retried, with no change to
contents, cursor, or count. -/
lemma writeDataInternal_eintr (c : List Nat) (pos : Nat) (data : List Nat)
    (written : Nat) (rest : List WriteRes) (h : written < data.length) :
    writeDataInternal c pos data written (.eintr :: rest)
      = writeDataInternal c pos data written rest := by
  rw [writeDataInternal.eq_def, if_pos h]

/-- Unfolding: a genuine OS write failure ends the loop with `-1`. -/
lemma writeDataInternal_err (c : List Nat) (pos : Nat) (data : List Nat)
    (written : Nat) (e : Errno) (rest : List WriteRes)
    (h : written < data.length) :
    writeDataInternal c pos data written (.err e :: rest) = .fail c pos e := by
  rw [writeDataInternal.eq_def, if_pos h]

/-- Unfolding: a completed OS write advances contents, cursor and count by
the completed byte count. -/
lemma writeDataInternal_ok (c : List Nat) (pos : Nat) (data : List Nat)
    (written n : Nat) (rest : List WriteRes) (h : written < data.length) :
    writeDataInternal c pos data written (.ok n :: rest)
      = writeDataInternal
          (writeAt c pos ((data.drop written).take (min n (data.length - written))))
          (pos + min n (data.length - written)) data
          (written + min n (data.length - written)) rest := by
  rw [writeDataInternal.eq_def, if_pos h]

/-- Specification of a completed bounded write loop: starting with the
first `w` bytes of `data` already written at `offset` and the cursor at
`offset + w`, a `done` result means the cursor reached `offset + len` and
all of `data` sits at `offset` in the final contents. -/
lemma writeDataInternal_done_spec (trace : List WriteRes) :
    ∀ (c : List Nat) (data : List Nat) (offset w : Nat),
      (c.drop offset).take w = data.take w →
      (w = 0 ∨ offset + w ≤ c.length) →
      w ≤ data.length →
      ∀ (c2 : List Nat) (pos2 : Nat),
      writeDataInternal c (offset + w) data w trace = .done c2 pos2 →
      pos2 = offset + data.length ∧
        (c2.drop offset).take data.length = data := by
  induction trace with
  | nil =>
      intro c data offset w hw hl hwlen c2 pos2 hres
      by_cases hlt : w < data.length
      · rw [writeDataInternal_nil c _ data w hlt] at hres
        simp at hres
      · rw [writeDataInternal_stop c _ data w _ hlt] at hres
        have hweq : w = data.length := by omega
        subst hweq
        cases hres
        exact ⟨rfl, by rw [hw, List.take_length]⟩
  | cons r rest ih =>
      intro c data offset w hw hl hwlen c2 pos2 hres
      by_cases hlt : w < data.length
      · match r with
        | .eintr =>
            rw [writeDataInternal_eintr c _ data w rest hlt] at hres
            exact ih c data offset w hw hl hwlen c2 pos2 hres
        | .err e =>
            rw [writeDataInternal_err c _ data w e rest hlt] at hres
            simp at hres
        | .ok n =>
            rw [writeDataInternal_ok c _ data w n rest hlt] at hres
            have hm : w + min n (data.length - w) ≤ data.length := by omega
            have hstep := writeAt_region c data offset w (min n (data.length - w))
              hw hl hm
            have harr : offset + w + min n (data.length - w)
                = offset + (w + min n (data.length - w)) := by omega
            rw [harr] at hres
            exact ih _ data offset (w + min n (data.length - w))
              hstep.1 hstep.2 hm c2 pos2 hres
      · rw [writeDataInternal_stop c _ data w _ hlt] at hres
        have hweq : w = data.length := by omega
        subst hweq
        cases hres
        exact ⟨rfl, by rw [hw, List.take_length]⟩

/-- On an open descriptor and a non-negative offset, `seek` repositions the
cursor and succeeds. -/
lemma seek_open (w : DiskWriter) (h : OpenFile) (offset : Int)
    (hfd : w.fd = some h) (hoff : 0 ≤ offset) :
    seek w offset = (setFd w (some ⟨h.path, offset.toNat⟩), none) := by
  have hneg : ¬ offset < 0 := by omega
  simp [seek, lseekOS, hfd, hneg]

/-- On a closed descriptor and a non-negative offset, `lseek` returns `-1 ≠
offset`, so `seek` throws `SeekError` and changes nothing. -/
lemma seek_closed (w : DiskWriter) (offset : Int)
    (hfd : w.fd = none) (hoff : 0 ≤ offset) :
    seek w offset = (w, some .SeekError) := by
  have hne : offset ≠ (-1 : Int) := by omega
  simp [seek, lseekOS, hfd, hne]

/-- `writeData` on an open descriptor whose write loop completes. -/
lemma writeData_open_done (fs : FileSys) (w : DiskWriter) (h : OpenFile)
    (data : List Nat) (offset : Int) (trace : List WriteRes)
    (c2 : List Nat) (pos2 : Nat)
    (hfd : w.fd = some h) (hoff : 0 ≤ offset)
    (hint : writeDataInternal (fileOf fs h.path) offset.toNat data 0 trace
      = .done c2 pos2) :
    writeData fs w data offset trace =
      ⟨⟨updateFile fs.files h.path c2, fs.dirs⟩,
       ⟨some ⟨h.path, pos2⟩, w.filename⟩, .ok ()⟩ := by
  simp [writeData, seek_open w h offset hfd hoff, setFd, hint]

/-- `writeData` on an open descriptor whose write loop fails with errno
`e`: `OutOfSpaceError` for `ENOSPC`, `WriteError` otherwise. -/
lemma writeData_open_fail (fs : FileSys) (w : DiskWriter) (h : OpenFile)
    (data : List Nat) (offset : Int) (trace : List WriteRes)
    (c2 : List Nat) (pos2 : Nat) (e : Errno)
    (hfd : w.fd = some h) (hoff : 0 ≤ offset)
    (hint : writeDataInternal (fileOf fs h.path) offset.toNat data 0 trace
      = .fail c2 pos2 e) :
    writeData fs w data offset trace =
      ⟨⟨updateFile fs.files h.path c2, fs.dirs⟩,
       ⟨some ⟨h.path, pos2⟩, w.filename⟩,
       .error (if e = .ENOSPC then .OutOfSpaceError else .WriteError e)⟩ := by
  simp [writeData, seek_open w h offset hfd hoff, setFd, hint]

/-- `writeData` on an open descriptor whose trace runs out mid-loop. -/
lemma writeData_open_pending (fs : FileSys) (w : DiskWriter) (h : OpenFile)
    (data : List Nat) (offset : Int) (trace : List WriteRes)
    (c2 : List Nat) (pos2 w2 : Nat)
    (hfd : w.fd = some h) (hoff : 0 ≤ offset)
    (hint : writeDataInternal (fileOf fs h.path) offset.toNat data 0 trace
      = .pending c2 pos2 w2) :
    writeData fs w data offset trace =
      ⟨⟨updateFile fs.files h.path c2, fs.dirs⟩,
       ⟨some ⟨h.path, pos2⟩, w.filename⟩, .spinning⟩ := by
  simp [writeData, seek_open w h offset hfd hoff, setFd, hint]

/-- `writeData` before any successful open: the initial seek fails. -/
lemma writeData_closed (fs : FileSys) (w : DiskWriter) (data : List Nat)
    (offset : Int) (trace : List WriteRes)
    (hfd : w.fd = none) (hoff : 0 ≤ offset) :
    writeData fs w data offset trace = ⟨fs, w, .error .SeekError⟩ := by
  simp [writeData, seek_closed w offset hfd hoff]

/-- `readData` on an open descriptor whose single OS read completes. -/
lemma readData_open_got (fs : FileSys) (w : DiskWriter) (h : OpenFile)
    (len : Nat) (offset : Int) (trace : List ReadRes) (bytes : List Nat)
    (hfd : w.fd = some h) (hoff : 0 ≤ offset)
    (hint : readDataInternal (fileOf fs h.path) offset.toNat len trace
      = .got bytes) :
    readData fs w len offset trace =
      ⟨fs, ⟨some ⟨h.path, offset.toNat + bytes.length⟩, w.filename⟩,
       .ok bytes⟩ := by
  simp [readData, seek_open w h offset hfd hoff, setFd, hint]

/-- `readData` on an open descriptor whose single OS read fails. -/
lemma readData_open_err (fs : FileSys) (w : DiskWriter) (h : OpenFile)
    (len : Nat) (offset : Int) (trace : List ReadRes) (e : Errno)
    (hfd : w.fd = some h) (hoff : 0 ≤ offset)
    (hint : readDataInternal (fileOf fs h.path) offset.toNat len trace
      = .fail e) :
    readData fs w len offset trace =
      ⟨fs, ⟨some ⟨h.path, offset.toNat⟩, w.filename⟩,
       .error (.ReadError e)⟩ := by
  simp [readData, seek_open w h offset hfd hoff, setFd, hint]

/-- `readData` before any successful open: the initial seek fails. -/
lemma readData_closed (fs : FileSys) (w : DiskWriter) (len : Nat)
    (offset : Int) (trace : List ReadRes)
    (hfd : w.fd = none) (hoff : 0 ≤ offset) :
    readData fs w len offset trace = ⟨fs, w, .error .SeekError⟩ := by
  simp [readData, seek_closed w offset hfd hoff]

/-- Leading signal interruptions are skipped by the read retry loop. -/
lemma readDataInternal_skip (c : List Nat) (pos len k : Nat)
    (t : List ReadRes) :
    readDataInternal c pos len (List.replicate k .eintr ++ t)
      = readDataInternal c pos len t := by
  induction k with
  | zero => rfl
  | succ j ih => simpa [List.replicate_succ, readDataInternal] using ih

/-- C1: for every file opened via openFile or createFile (i.e. every writer
state holding an open descriptor), every non-negative offset and every byte
sequence `data`, a `writeData` call that returns success followed by
`readData` of `data.length` bytes at the same offset returns exactly the
bytes that were written. -/
theorem c1_write_then_read_roundtrip
    (fs : FileSys) (w : DiskWriter) (h : OpenFile) (data : List Nat)
    (offset : Int) (wtrace : List WriteRes)
    (hfd : w.fd = some h) (hoff : 0 ≤ offset)
    (hok : (writeData fs w data offset wtrace).out = .ok ()) :
    (readData (writeData fs w data offset wtrace).fs
        (writeData fs w data offset wtrace).w data.length offset [.okr]).out
      = .ok data := by
  rcases hint : writeDataInternal (fileOf fs h.path) offset.toNat data 0 wtrace with
    ⟨c2, pos2⟩ | ⟨c2, pos2, e⟩ | ⟨c2, pos2, w2⟩
  · have hw0 : ((fileOf fs h.path).drop offset.toNat).take 0 = data.take 0 := by
      simp
    have hspec := writeDataInternal_done_spec wtrace (fileOf fs h.path) data
      offset.toNat 0 hw0 (Or.inl rfl) (Nat.zero_le _) c2 pos2 (by simpa using hint)
    rw [writeData_open_done fs w h data offset wtrace c2 pos2 hfd hoff hint]
    have hlu : fileOf ⟨updateFile fs.files h.path c2, fs.dirs⟩ h.path = c2 := by
      simp [fileOf, lookupFile_updateFile_self]
    have hint2 : readDataInternal
        (fileOf ⟨updateFile fs.files h.path c2, fs.dirs⟩ h.path)
        offset.toNat data.length [.okr]
        = .got (readAt c2 offset.toNat data.length) := by
      rw [hlu]
      rfl
    rw [readData_open_got ⟨updateFile fs.files h.path c2, fs.dirs⟩
      ⟨some ⟨h.path, pos2⟩, w.filename⟩ ⟨h.path, pos2⟩ data.length offset [.okr]
      (readAt c2 offset.toNat data.length) rfl hoff hint2]
    rw [show readAt c2 offset.toNat data.length = data from by rw [readAt, hspec.2]]
  · rw [writeData_open_fail fs w h data offset wtrace c2 pos2 e hfd hoff hint] at hok
    simp at hok
  · rw [writeData_open_pending fs w h data offset wtrace c2 pos2 w2 hfd hoff hint] at hok
    simp at hok

/-- Witness for C1 at a concrete input: writing `[1,2,3]` at offset 1 of a
four-byte file through two partial OS writes, then reading three bytes back
at offset 1, returns `[1,2,3]`. -/
theorem c1_write_then_read_roundtrip_witness :
    (readData (writeData sampleFs sampleOpen [1, 2, 3] 1
        [.ok 2, .eintr, .ok 1]).fs
      (writeData sampleFs sampleOpen [1, 2, 3] 1 [.ok 2, .eintr, .ok 1]).w
      3 1 [.okr]).out = .ok [1, 2, 3] :=
  c1_write_then_read_roundtrip sampleFs sampleOpen ⟨["f"], 0⟩ [1, 2, 3] 1
    [.ok 2, .eintr, .ok 1] rfl (by decide) (by decide)

/-- C2: before any successful open/create (`fd` absent), `truncate` and
`size` raise `NotOpenError`, while `seek`, `writeData` and `readData` raise
the open-dependent `SeekError` (their initial `lseek` on the invalid
descriptor cannot land at the requested non-negative offset), and no
transfer is performed: the filesystem is unchanged. -/
theorem c2_not_open_guard
    (fs : FileSys) (w : DiskWriter) (len : Nat) (data : List Nat)
    (offset : Int) (wtr : List WriteRes) (rtr : List ReadRes) (tf sf : Bool)
    (hfd : w.fd = none) (hoff : 0 ≤ offset) :
    (truncate fs w len tf).out = .error .NotOpenError
    ∧ (truncate fs w len tf).fs = fs
    ∧ (size fs w sf).out = .error .NotOpenError
    ∧ (seek w offset).2 = some .SeekError
    ∧ (writeData fs w data offset wtr).out = .error .SeekError
    ∧ (writeData fs w data offset wtr).fs = fs
    ∧ (readData fs w len offset rtr).out = .error .SeekError
    ∧ (readData fs w len offset rtr).fs = fs := by
  have hs := seek_closed w offset hfd hoff
  have hwc := writeData_closed fs w data offset wtr hfd hoff
  have hrc := readData_closed fs w len offset rtr hfd hoff
  refine ⟨?_, ?_, ?_, ?_, ?_, ?_, ?_, ?_⟩ <;>
    simp [truncate, size, hfd, hs, hwc, hrc]

/-- Witness for C2: all five operations on a never-opened writer raise, and
the filesystem is untouched. -/
theorem c2_not_open_guard_witness :
    (truncate sampleFs sampleClosed 5 true).out = .error .NotOpenError
    ∧ (truncate sampleFs sampleClosed 5 true).fs = sampleFs
    ∧ (size sampleFs sampleClosed true).out = .error .NotOpenError
    ∧ (seek sampleClosed 0).2 = some .SeekError
    ∧ (writeData sampleFs sampleClosed [1] 0 []).out = .error .SeekError
    ∧ (writeData sampleFs sampleClosed [1] 0 []).fs = sampleFs
    ∧ (readData sampleFs sampleClosed 5 0 []).out = .error .SeekError
    ∧ (readData sampleFs sampleClosed 5 0 []).fs = sampleFs :=
  c2_not_open_guard sampleFs sampleClosed 5 [1] 0 [] [] true true rfl (by decide)

/-- C3: on an open file, a write loop that fails with `ENOSPC` raises
`OutOfSpaceError` and one that fails with any other errno raises
`WriteError`; the two are distinguishable by constructor (in the source, by
exception type: `DownloadFailureException` vs `DlAbortEx`). -/
theorem c3_write_failure_kinds
    (fs : FileSys) (w : DiskWriter) (h : OpenFile) (data : List Nat)
    (offset : Int) (wtrace : List WriteRes) (c2 : List Nat) (pos2 : Nat)
    (e : Errno)
    (hfd : w.fd = some h) (hoff : 0 ≤ offset)
    (hfail : writeDataInternal (fileOf fs h.path) offset.toNat data 0 wtrace
      = .fail c2 pos2 e) :
    (writeData fs w data offset wtrace).out
        = .error (if e = .ENOSPC then .OutOfSpaceError else .WriteError e)
    ∧ (∀ e2 : Errno, (DiskError.OutOfSpaceError : DiskError) ≠ .WriteError e2) := by
  refine ⟨?_, fun e2 hcon => by cases hcon⟩
  rw [writeData_open_fail fs w h data offset wtrace c2 pos2 e hfd hoff hfail]

/-- Witness for C3: an `ENOSPC` write failure raises `OutOfSpaceError`,
which differs from every `WriteError`. -/
theorem c3_write_failure_kinds_witness :
    (writeData sampleFs sampleOpen [1] 1 [.err .ENOSPC]).out
        = .error .OutOfSpaceError
    ∧ (∀ e2 : Errno, (DiskError.OutOfSpaceError : DiskError) ≠ .WriteError e2) :=
  c3_write_failure_kinds sampleFs sampleOpen ⟨["f"], 0⟩ [1] 1 [.err .ENOSPC]
    [9, 9, 9, 9] 1 .ENOSPC rfl (by decide) (by decide)

/-- C4: on an open file, whenever `writeData` returns success — under any
sequence of OS write outcomes, including runs of partial completions and
transparently retried signal interruptions — exactly `data.length` bytes
have been written: the cursor advanced from the seeked offset by exactly
`data.length`, and all of `data` sits at the offset in the final file. -/
theorem c4_success_means_full_length
    (fs : FileSys) (w : DiskWriter) (h : OpenFile) (data : List Nat)
    (offset : Int) (wtrace : List WriteRes)
    (hfd : w.fd = some h) (hoff : 0 ≤ offset)
    (hok : (writeData fs w data offset wtrace).out = .ok ()) :
    (writeData fs w data offset wtrace).w.fd
        = some ⟨h.path, offset.toNat + data.length⟩
    ∧ ((fileOf (writeData fs w data offset wtrace).fs h.path).drop
        offset.toNat).take data.length = data := by
  rcases hint : writeDataInternal (fileOf fs h.path) offset.toNat data 0 wtrace with
    ⟨c2, pos2⟩ | ⟨c2, pos2, e⟩ | ⟨c2, pos2, w2⟩
  · have hw0 : ((fileOf fs h.path).drop offset.toNat).take 0 = data.take 0 := by
      simp
    have hspec := writeDataInternal_done_spec wtrace (fileOf fs h.path) data
      offset.toNat 0 hw0 (Or.inl rfl) (Nat.zero_le _) c2 pos2 (by simpa using hint)
    rw [writeData_open_done fs w h data offset wtrace c2 pos2 hfd hoff hint]
    have hlu : fileOf ⟨updateFile fs.files h.path c2, fs.dirs⟩ h.path = c2 := by
      simp [fileOf, lookupFile_updateFile_self]
    exact ⟨by rw [hspec.1], by rw [hlu, hspec.2]⟩
  · rw [writeData_open_fail fs w h data offset wtrace c2 pos2 e hfd hoff hint] at hok
    simp at hok
  · rw [writeData_open_pending fs w h data offset wtrace c2 pos2 w2 hfd hoff hint] at hok
    simp at hok

/-- Witness for C4: three OS writes of one byte each deliver a three-byte
`writeData` at offset 0; the cursor ends at 3 and the bytes are in place. -/
theorem c4_success_means_full_length_witness :
    (writeData sampleFs sampleOpen [1, 2, 3] 0 [.ok 1, .ok 1, .ok 1]).w.fd
        = some ⟨["f"], 0 + 3⟩
    ∧ ((fileOf (writeData sampleFs sampleOpen [1, 2, 3] 0
        [.ok 1, .ok 1, .ok 1]).fs ["f"]).drop 0).take 3 = [1, 2, 3] :=
  c4_success_means_full_length sampleFs sampleOpen ⟨["f"], 0⟩ [1, 2, 3] 0
    [.ok 1, .ok 1, .ok 1] rfl (by decide) (by decide)

/-- C5: on an open file, `readData` issues exactly one OS read — the first
non-interrupted outcome decides, and any later entries of the outcome trace
are never consulted (the conclusion holds for arbitrary `rest1`/`rest2`).
A completed read returns the bytes actually available, which may number
fewer than `len` (zero at end-of-file), as success; `ReadError` is raised
exactly when that one OS read fails. -/
theorem c5_read_is_single_call
    (fs : FileSys) (w : DiskWriter) (h : OpenFile) (len : Nat) (offset : Int)
    (k : Nat) (e : Errno) (rest1 rest2 : List ReadRes)
    (hfd : w.fd = some h) (hoff : 0 ≤ offset) :
    (readData fs w len offset (List.replicate k .eintr ++ .okr :: rest1)).out
        = .ok (readAt (fileOf fs h.path) offset.toNat len)
    ∧ (readAt (fileOf fs h.path) offset.toNat len).length ≤ len
    ∧ (readData fs w len offset (List.replicate k .eintr ++ .err e :: rest2)).out
        = .error (.ReadError e) := by
  have hg : readDataInternal (fileOf fs h.path) offset.toNat len
      (List.replicate k .eintr ++ .okr :: rest1)
      = .got (readAt (fileOf fs h.path) offset.toNat len) := by
    rw [readDataInternal_skip]
    rfl
  have hf : readDataInternal (fileOf fs h.path) offset.toNat len
      (List.replicate k .eintr ++ .err e :: rest2) = .fail e := by
    rw [readDataInternal_skip]
    rfl
  refine ⟨?_, ?_, ?_⟩
  · rw [readData_open_got fs w h len offset _ _ hfd hoff hg]
  · simp only [readAt, List.length_take, List.length_drop]
    omega
  · rw [readData_open_err fs w h len offset _ e hfd hoff hf]

/-- Witness for C5: reading 10 bytes at offset 2 of the four-byte file,
after two signal interruptions, returns the two available bytes as success
(later trace entries unused); a failing read raises `ReadError`. -/
theorem c5_read_is_single_call_witness :
    (readData sampleFs sampleOpen 10 2
        (List.replicate 2 .eintr ++ .okr :: [.okr])).out = .ok [9, 9]
    ∧ ([9, 9] : List Nat).length ≤ 10
    ∧ (readData sampleFs sampleOpen 10 2
        (List.replicate 2 .eintr ++ .err .EOTHER :: [.okr])).out
        = .error (.ReadError .EOTHER) :=
  c5_read_is_single_call sampleFs sampleOpen ⟨["f"], 0⟩ 10 2 2 .EOTHER
    [.okr] [.okr] rfl (by decide)

/-- C6: `openFile` on an existing regular file opens it read/write without
truncation — the filesystem (hence the file's contents) is unchanged and
the descriptor is at offset 0 — whereas `createFile` first ensures the
ancestor directories exist and then opens with create+truncate+read/write
semantics, leaving the file with empty contents. -/
theorem c6_open_vs_create
    (fs : FileSys) (w : DiskWriter) (name : Path) (c : List Nat) (tl : Nat)
    (hex : lookupFile fs.files name = some c)
    (hne : name ≠ [])
    (hdir : name ∉ fs.dirs) :
    ((openFile fs w name tl).out = .ok ()
      ∧ (openFile fs w name tl).fs = fs
      ∧ (openFile fs w name tl).w.fd = some ⟨name, 0⟩)
    ∧ ((createFile fs w name false).out = .ok ()
      ∧ lookupFile (createFile fs w name false).fs.files name = some []
      ∧ getDirname name ∈ (createFile fs w name false).fs.dirs
      ∧ (createFile fs w name false).w.fd = some ⟨name, 0⟩) := by
  have hex2 : fileExists fs name = true := by
    simp [fileExists, isFile, hex]
  have hne2 : name ≠ getDirname name := by
    simpa [getDirname] using dropLast_ne_self name hne
  constructor
  · refine ⟨?_, ?_, ?_⟩ <;>
      simp [openFile, hex2, openExistingFile, hex, setFd, setFilename]
  · refine ⟨?_, ?_, ?_, ?_⟩ <;>
      simp [createFile, hne, hne2, hdir, mkdirs, setFd, setFilename,
        lookupFile_updateFile_self]

/-- Witness for C6 on the sample state: opening the existing `"f"`
preserves it; creating over it truncates it to empty and records its
parent directory. -/
theorem c6_open_vs_create_witness :
    ((openFile sampleFs sampleOpen ["f"] 4).out = .ok ()
      ∧ (openFile sampleFs sampleOpen ["f"] 4).fs = sampleFs
      ∧ (openFile sampleFs sampleOpen ["f"] 4).w.fd = some ⟨["f"], 0⟩)
    ∧ ((createFile sampleFs sampleOpen ["f"] false).out = .ok ()
      ∧ lookupFile (createFile sampleFs sampleOpen ["f"] false).fs.files ["f"]
          = some []
      ∧ getDirname ["f"] ∈ (createFile sampleFs sampleOpen ["f"] false).fs.dirs
      ∧ (createFile sampleFs sampleOpen ["f"] false).w.fd = some ⟨["f"], 0⟩) :=
  c6_open_vs_create sampleFs sampleOpen ["f"] [9, 9, 9, 9] 4
    (by decide) (by decide) (by decide)

/-- C7: on an open file, `size` returns the length reported by the OS
status query, and when the status query itself fails it returns zero
rather than raising. -/
theorem c7_size_status_degrade
    (fs : FileSys) (w : DiskWriter) (h : OpenFile)
    (hfd : w.fd = some h) :
    (size fs w true).out = .ok 0
    ∧ (size fs w false).out = .ok (fileOf fs h.path).length := by
  constructor <;> simp [size, hfd]

/-- Witness for C7: on the sample open file, a failing status query yields
0 and a successful one yields the length 4. -/
theorem c7_size_status_degrade_witness :
    (size sampleFs sampleOpen true).out = .ok 0
    ∧ (size sampleFs sampleOpen false).out = .ok 4 :=
  c7_size_status_degrade sampleFs sampleOpen ⟨["f"], 0⟩ rfl

/-- C8 (evaluating the code at the failing input): on an open file, when
the OS length-truncate call fails, `truncate` nevertheless returns
normally and the filesystem is unchanged — the failure is hidden as
success, because the source ignores `ftruncate`'s return value. -/
theorem c8_truncate_hides_failure
    (fs : FileSys) (w : DiskWriter) (h : OpenFile) (len : Nat)
    (hfd : w.fd = some h) :
    (truncate fs w len true).out = .ok ()
    ∧ (truncate fs w len true).fs = fs := by
  constructor <;> simp [truncate, hfd]

/-- Witness for C8: a failing OS truncate on the sample open file is
reported as success with nothing changed. -/
theorem c8_truncate_hides_failure_witness :
    (truncate sampleFs sampleOpen 2 true).out = .ok ()
    ∧ (truncate sampleFs sampleOpen 2 true).fs = sampleFs :=
  c8_truncate_hides_failure sampleFs sampleOpen ⟨["f"], 0⟩ 2 rfl

/-- Counterexample to C9 as stated: creating over the directory path `"d"`
from a writer holding an open descriptor fails with `OpenError` and rebinds
the path, but the handle does not remain in its previous state — the failed
open's `fd = open(...)` assignment has already replaced it with the invalid
sentinel. -/
theorem c9_filename_rebound_counterexample :
    (createFile sampleFs sampleOpen ["d"] false).out = .error .OpenError
    ∧ (createFile sampleFs sampleOpen ["d"] false).w.filename = ["d"]
    ∧ (createFile sampleFs sampleOpen ["d"] false).w.fd ≠ sampleOpen.fd := by
  refine ⟨by decide, by decide, by decide⟩

/-- C9 (amended): both `openExistingFile` and `createFile` rebind the
instance's `filename` before attempting the OS open, so when the open fails
with `OpenError` the `filename` field has already been rebound — the
rebinding is not atomic with success.  For `openExistingFile`'s
not-a-regular-file failure (the throw precedes the open call) the
descriptor keeps its previous value, whereas when `createFile`'s open fails
(here: `EISDIR` on a directory) the source's `if((fd = open(...)) < 0)` has
already overwritten the handle with the invalid sentinel. -/
theorem c9_filename_rebound_before_open
    (fs : FileSys) (w : DiskWriter) (name : Path) (tl : Nat)
    (hnf : lookupFile fs.files name = none)
    (hdir : name ∈ fs.dirs) (hne : name ≠ []) :
    ((openExistingFile fs w name tl).out = .error .OpenError
      ∧ (openExistingFile fs w name tl).w.filename = name
      ∧ (openExistingFile fs w name tl).w.fd = w.fd)
    ∧ ((createFile fs w name false).out = .error .OpenError
      ∧ (createFile fs w name false).w.filename = name
      ∧ (createFile fs w name false).w.fd = none) := by
  have hmem : name ∈ (mkdirs fs (getDirname name)).dirs := by
    simp only [mkdirs, List.mem_cons]
    exact Or.inr hdir
  constructor
  · refine ⟨?_, ?_, ?_⟩ <;> simp [openExistingFile, hnf, setFilename]
  · refine ⟨?_, ?_, ?_⟩ <;> simp [createFile, hne, hmem, setFilename, setFd]

/-- Witness for the amended C9: opening or creating at the directory path
`"d"` fails with `OpenError` and the writer's bound path is already `"d"`;
`openExistingFile` leaves the descriptor unchanged while `createFile`'s
failed open has cleared it. -/
theorem c9_filename_rebound_before_open_witness :
    ((openExistingFile sampleFs sampleOpen ["d"] 0).out = .error .OpenError
      ∧ (openExistingFile sampleFs sampleOpen ["d"] 0).w.filename = ["d"]
      ∧ (openExistingFile sampleFs sampleOpen ["d"] 0).w.fd = sampleOpen.fd)
    ∧ ((createFile sampleFs sampleOpen ["d"] false).out = .error .OpenError
      ∧ (createFile sampleFs sampleOpen ["d"] false).w.filename = ["d"]
      ∧ (createFile sampleFs sampleOpen ["d"] false).w.fd = none) :=
  c9_filename_rebound_before_open sampleFs sampleOpen ["d"] 0
    (by decide) (by decide) (by decide)

/-- Progress: if no OS write in the outcome trace completes zero bytes,
then once the trace supplies at least `data.length - written` non-interrupted
outcomes, the loop has completed (returned or failed) — it is never left
pending. -/
lemma writeDataInternal_progress (trace : List WriteRes) :
    ∀ (written : Nat) (c : List Nat) (pos : Nat) (data : List Nat),
      (∀ r ∈ trace, r ≠ WriteRes.ok 0) →
      data.length ≤ written + countNonIntr trace →
      ∀ c2 p2 w2, writeDataInternal c pos data written trace ≠ .pending c2 p2 w2 := by
  induction trace with
  | nil =>
      intro written c pos data hpos hcount c2 p2 w2
      have hstop : ¬ written < data.length := by
        simp only [countNonIntr] at hcount
        omega
      rw [writeDataInternal_stop c pos data written [] hstop]
      simp
  | cons r rest ih =>
      intro written c pos data hpos hcount c2 p2 w2
      by_cases hlt : written < data.length
      · match r with
        | .eintr =>
            rw [writeDataInternal_eintr c pos data written rest hlt]
            exact ih written c pos data
              (fun x hx => hpos x (List.mem_cons_of_mem _ hx))
              (by simpa [countNonIntr] using hcount) c2 p2 w2
        | .err e =>
            rw [writeDataInternal_err c pos data written e rest hlt]
            simp
        | .ok n =>
            have hn : 1 ≤ n := by
              have := hpos (.ok n) (List.mem_cons_self _ _)
              rcases Nat.eq_zero_or_pos n with h0 | h1
              · exact absurd (h0 ▸ rfl) this
              · exact h1
            have hmin : 1 ≤ min n (data.length - written) := by
              exact le_min hn (by omega)
            rw [writeDataInternal_ok c pos data written n rest hlt]
            refine ih (written + min n (data.length - written)) _ _ data
              (fun x hx => hpos x (List.mem_cons_of_mem _ hx)) ?_ c2 p2 w2
            simp only [countNonIntr] at hcount
            omega
      · rw [writeDataInternal_stop c pos data written _ hlt]
        simp

/-- C10: the bounded write loop terminates whenever every non-error,
non-interrupted OS write completes at least one byte (first conjunct: with
enough such outcomes supplied, the loop is never left pending), whereas if
the OS write keeps returning zero bytes without error the loop keeps
issuing write calls without making progress: after any number of zero-byte
completions it is still pending with zero bytes written and contents and
cursor unchanged (second conjunct). -/
theorem c10_write_loop_progress_and_stall
    (c : List Nat) (pos : Nat) (data : List Nat) (trace : List WriteRes)
    (k : Nat) :
    ((∀ r ∈ trace, r ≠ WriteRes.ok 0) →
      data.length ≤ countNonIntr trace →
      ∀ c2 p2 w2, writeDataInternal c pos data 0 trace ≠ .pending c2 p2 w2)
    ∧ (data ≠ [] →
      writeDataInternal c pos data 0 (List.replicate k (WriteRes.ok 0))
        = .pending c pos 0) := by
  constructor
  · intro h1 h2
    exact writeDataInternal_progress trace 0 c pos data h1 (by simpa using h2)
  · intro hne
    have hlt : 0 < data.length := List.length_pos.mpr hne
    induction k with
    | zero => exact writeDataInternal_nil c pos data 0 hlt
    | succ j ihj =>
        rw [List.replicate_succ, writeDataInternal_ok c pos data 0 0 _ hlt]
        simpa [writeAt_nil] using ihj

/-- Witness for C10: two one-byte completions finish a two-byte write (not
pending), while three zero-byte completions leave it pending with no
progress. -/
theorem c10_write_loop_progress_and_stall_witness :
    (∀ c2 p2 w2,
      writeDataInternal [] 0 [5, 6] 0 [.ok 1, .ok 1] ≠ .pending c2 p2 w2)
    ∧ writeDataInternal [] 0 [5, 6] 0 (List.replicate 3 (WriteRes.ok 0))
        = .pending [] 0 0 :=
  ⟨(c10_write_loop_progress_and_stall [] 0 [5, 6] [.ok 1, .ok 1] 3).1
      (by decide) (by decide),
   (c10_write_loop_progress_and_stall [] 0 [5, 6] [.ok 1, .ok 1] 3).2
      (by decide)⟩

end aria2
